import Mathlib

set_option maxRecDepth 20000

/-!
Verification of the CodePush update-acquisition protocol and management SDK.

The acquisition SDK itself ships only as a compiled artifact in this
repository; its behaviour is fixed by the specification and exercised by the
Mocha test suite.  The definitions in namespace `CodePush` are therefore
modelled from the spec.  `AccountManager.getSessions` is translated directly
from `src/cli/script/management-sdk.ts`.
-/

namespace CodePush

/-! ### A small JSON model

The update-check client parses the transport response body as JSON.  We model
JSON values and a recursive-descent parser covering the fragment the wire
contract uses (objects, arrays, strings with basic escapes, integers,
booleans, null). -/

inductive Json where
  | null : Json
  | bool (b : Bool) : Json
  | num (n : Int) : Json
  | str (s : String) : Json
  | arr (elems : List Json) : Json
  | obj (fields : List (String × Json)) : Json

def dq : Char := Char.ofNat 34
def bsl : Char := Char.ofNat 92
def lbr : Char := Char.ofNat 123
def rbr : Char := Char.ofNat 125
def lbk : Char := Char.ofNat 91
def rbk : Char := Char.ofNat 93

def isWs (c : Char) : Bool :=
  c = ' ' || c = Char.ofNat 9 || c = Char.ofNat 10 || c = Char.ofNat 13

def skipWs : List Char → List Char
  | [] => []
  | c :: cs => if isWs c then skipWs cs else c :: cs

def escapeChar (c : Char) : Option Char :=
  if c = dq then some dq
  else if c = bsl then some bsl
  else if c = '/' then some '/'
  else if c = 'n' then some (Char.ofNat 10)
  else if c = 't' then some (Char.ofNat 9)
  else if c = 'r' then some (Char.ofNat 13)
  else none

/-- Parse the remainder of a JSON string literal (after the opening quote),
returning the accumulated characters and the rest of the input. -/
def parseStrAux : List Char → Option (List Char × List Char)
  | [] => none
  | c :: cs =>
    if c = dq then some ([], cs)
    else if c = bsl then
      match cs with
      | [] => none
      | e :: rest =>
        match escapeChar e with
        | none => none
        | some ch =>
          match parseStrAux rest with
          | none => none
          | some (acc, r) => some (ch :: acc, r)
    else
      match parseStrAux cs with
      | none => none
      | some (acc, r) => some (c :: acc, r)

/-- Consume a maximal run of decimal digits, accumulating their value. -/
def digitsAux (acc : Nat) : List Char → Nat × List Char
  | [] => (acc, [])
  | c :: cs => if c.isDigit then digitsAux (acc * 10 + (c.toNat - 48)) cs else (acc, c :: cs)

mutual

/-- Fueled recursive-descent JSON value parser. -/
def parseValue : Nat → List Char → Option (Json × List Char)
  | 0, _ => none
  | f + 1, input =>
    match skipWs input with
    | [] => none
    | c :: cs =>
      if c = dq then
        match parseStrAux cs with
        | some (s, r) => some (Json.str (String.mk s), r)
        | none => none
      else if c = lbr then
        match skipWs cs with
        | [] => none
        | d :: ds =>
          if d = rbr then some (Json.obj [], ds)
          else
            match parseMembers f (d :: ds) with
            | some (ms, r) => some (Json.obj ms, r)
            | none => none
      else if c = lbk then
        match skipWs cs with
        | [] => none
        | d :: ds =>
          if d = rbk then some (Json.arr [], ds)
          else
            match parseElems f (d :: ds) with
            | some (es, r) => some (Json.arr es, r)
            | none => none
      else if c = '-' then
        match cs with
        | [] => none
        | d :: _ =>
          if d.isDigit then
            match digitsAux 0 cs with
            | (n, r) => some (Json.num (-(n : Int)), r)
          else none
      else if c.isDigit then
        match digitsAux 0 (c :: cs) with
        | (n, r) => some (Json.num (n : Int), r)
      else
        match c :: cs with
        | 't' :: 'r' :: 'u' :: 'e' :: r => some (Json.bool true, r)
        | 'f' :: 'a' :: 'l' :: 's' :: 'e' :: r => some (Json.bool false, r)
        | 'n' :: 'u' :: 'l' :: 'l' :: r => some (Json.null, r)
        | _ => none

/-- Parse a non-empty list of `"key": value` members, up to the closing brace. -/
def parseMembers : Nat → List Char → Option (List (String × Json) × List Char)
  | 0, _ => none
  | f + 1, input =>
    match skipWs input with
    | [] => none
    | c :: cs =>
      if c = dq then
        match parseStrAux cs with
        | none => none
        | some (k, r1) =>
          match skipWs r1 with
          | [] => none
          | d :: ds =>
            if d = ':' then
              match parseValue f ds with
              | none => none
              | some (v, r2) =>
                match skipWs r2 with
                | [] => none
                | e :: es =>
                  if e = ',' then
                    match parseMembers f es with
                    | some (ms, r3) => some ((String.mk k, v) :: ms, r3)
                    | none => none
                  else if e = rbr then some ([(String.mk k, v)], es)
                  else none
            else none
      else none

/-- Parse a non-empty list of array elements, up to the closing bracket. -/
def parseElems : Nat → List Char → Option (List Json × List Char)
  | 0, _ => none
  | f + 1, input =>
    match parseValue f input with
    | none => none
    | some (v, r1) =>
      match skipWs r1 with
      | [] => none
      | e :: es =>
        if e = ',' then
          match parseElems f es with
          | some (vs, r2) => some (v :: vs, r2)
          | none => none
        else if e = rbk then some ([v], es)
        else none

end

/-- Parse a whole response body as a JSON document; `none` means the body is
not valid JSON. -/
def parseJson (s : String) : Option Json :=
  match parseValue (s.length + 1) s.data with
  | none => none
  | some (v, rest) => if skipWs rest = [] then some v else none

def lookupField (fields : List (String × Json)) (k : String) : Option Json :=
  (fields.find? (fun p => p.1 = k)).map (fun p => p.2)

def asString : Json → Option String
  | .str s => some s
  | _ => none

def asBool : Json → Option Bool
  | .bool b => some b
  | _ => none

def asNat : Json → Option Nat
  | .num n => if n < 0 then none else some n.toNat
  | _ => none

/-! ### Semantic-version comparison

Modelled from the spec: the native-binary-compatibility gate compares the
client's binary version with the version the latest content targets using
semantic-version ordering (dotted numeric components, missing components
treated as zero). -/

/-- Split a character list on the dot separator. -/
def splitDotAux (acc : List Char) : List Char → List (List Char)
  | [] => [acc.reverse]
  | c :: cs =>
    if c = '.' then acc.reverse :: splitDotAux [] cs else splitDotAux (c :: acc) cs

/-- A purely numeric component's value; non-numeric components read as 0. -/
def chunkToNat (cs : List Char) : Nat :=
  if cs ≠ [] ∧ cs.all Char.isDigit then
    cs.foldl (fun a c => a * 10 + (c.toNat - 48)) 0
  else 0

def parseVersionComponents (s : String) : List Nat :=
  (splitDotAux [] s.data).map chunkToNat

def compareComponents : List Nat → List Nat → Ordering
  | [], b => if b.all (fun y => y = 0) then .eq else .lt
  | x :: xs, [] => if x = 0 then compareComponents xs [] else .gt
  | x :: xs, y :: ys =>
    if x < y then .lt else if y < x then .gt else compareComponents xs ys

def compareVersion (a b : String) : Ordering :=
  compareComponents (parseVersionComponents a) (parseVersionComponents b)

/-! ### Data model (spec §3) -/

/-- Client configuration; `ignoreAppVersion` defaults to `false` when the
caller omits it. -/
structure Configuration where
  serverUrl : String
  deploymentKey : String
  appVersion : String
  clientUniqueId : String
  ignoreAppVersion : Bool := false

/-- The caller-supplied currently-installed package descriptor.  Fields are
optional at the wire/API boundary (a JavaScript caller may pass `null`);
validation rejects a missing required field. -/
structure Package where
  deploymentKey : Option String
  appVersion : Option String
  label : Option String
  packageHash : Option String
  isMandatory : Option Bool
  packageSize : Option Nat
  description : Option String

/-- A package descriptor whose required fields passed validation. -/
structure ValidatedPackage where
  deploymentKey : String
  appVersion : String
  label : Option String
  packageHash : String
  isMandatory : Bool
  packageSize : Nat
  description : Option String

/-- Modelled from the spec: `currentPackage` must be non-null and have
non-null `appVersion`, `deploymentKey`, `packageHash`, `isMandatory`,
`packageSize` (spec §4.1 preconditions). -/
def validate (p : Package) : Option ValidatedPackage := do
  let appVersion ← p.appVersion
  let deploymentKey ← p.deploymentKey
  let packageHash ← p.packageHash
  let isMandatory ← p.isMandatory
  let packageSize ← p.packageSize
  pure
    { deploymentKey, appVersion, label := p.label, packageHash, isMandatory,
      packageSize, description := p.description }

/-- Normalized server latest-package response (wire shape of `updateInfo`). -/
structure UpdateCheckResponse where
  downloadURL : String
  description : Option String
  isMandatory : Bool
  appVersion : String
  packageHash : String
  label : String
  packageSize : Nat
  updateAppVersion : Bool

/-- A downloadable update descriptor handed back to the caller. -/
structure RemotePackage where
  deploymentKey : String
  description : Option String
  downloadUrl : String
  label : String
  appVersion : String
  isMandatory : Bool
  packageHash : String
  packageSize : Nat

/-- "Your native binary is the blocker; go to the store." -/
structure NativeUpdateNotification where
  updateAppVersion : Bool
  appVersion : String

/-- The decision outcome: exactly one of no-update (`null`), a downloadable
update, or a native-store redirect notification. -/
inductive Outcome where
  | noUpdate : Outcome
  | remote (p : RemotePackage) : Outcome
  | native (n : NativeUpdateNotification) : Outcome

/-! ### AcquisitionDecisionEngine (spec §4.2) -/

/-- The `RemotePackage` built from the server's fields; `deploymentKey` comes
from the client side, every other field verbatim from the response. -/
def remotePackageOf (latest : UpdateCheckResponse) (deploymentKey : String) :
    RemotePackage :=
  { deploymentKey
    description := latest.description
    downloadUrl := latest.downloadURL
    label := latest.label
    appVersion := latest.appVersion
    isMandatory := latest.isMandatory
    packageHash := latest.packageHash
    packageSize := latest.packageSize }

/-- Modelled from the spec: `decide(current, latest, ignoreAppVersion)`, the
pure decision engine of the acquisition SDK (whose source is not in the
repository checkout; only its test suite is).  Rules in order: hash equality
returns no-update; the native-binary gate (skipped when `ignoreAppVersion`)
returns a native notification when the client binary is lower and no-update
when it is higher; otherwise the server's package is returned verbatim. -/
def decide (current : ValidatedPackage) (latest : UpdateCheckResponse)
    (ignoreAppVersion : Bool) : Outcome :=
  if latest.packageHash = current.packageHash then .noUpdate
  else if ignoreAppVersion then .remote (remotePackageOf latest current.deploymentKey)
  else
    match compareVersion current.appVersion latest.appVersion with
    | .lt => .native { updateAppVersion := true, appVersion := latest.appVersion }
    | .gt => .noUpdate
    | .eq => .remote (remotePackageOf latest current.deploymentKey)

/-! ### UpdateCheckClient (spec §4.1) -/

/-- The injected HTTP capability's completed delivery: either a transport
failure or a response with a status code and a raw body string. -/
inductive TransportResult where
  | failure (message : String) : TransportResult
  | success (statusCode : Nat) (body : String) : TransportResult

/-- How one call to `queryUpdateWithCurrentPackage` terminates: a synchronous
invalid-argument fault thrown at the caller, or exactly one callback
invocation `(error, result)` where `none` results model `undefined`. -/
inductive QueryResult where
  | thrown (message : String) : QueryResult
  | callback (error : Option String) (result : Option Outcome) : QueryResult

def invalidArgumentMessage : String :=
  "Invalid arguments: currentPackage and its required fields must be non-null"

def invalidResponseMessage : String := "Invalid response received from the server"

def serverErrorMessage : String := "Server responded with a non-success status code"

/-- Extract the normalized latest-package payload from a parsed response
document: the document must be an object with an `updateInfo` member whose
fields decode to the wire shape; anything else is "no recognizable payload". -/
def readUpdateInfo : Json → Option UpdateCheckResponse
  | .obj fields => do
    let downloadURL ← lookupField fields "downloadURL" >>= asString
    let appVersion ← lookupField fields "appVersion" >>= asString
    let packageHash ← lookupField fields "packageHash" >>= asString
    let label ← lookupField fields "label" >>= asString
    let isMandatory ← lookupField fields "isMandatory" >>= asBool
    let packageSize ← lookupField fields "packageSize" >>= asNat
    pure
      { downloadURL, appVersion, packageHash, label, isMandatory, packageSize
        description := lookupField fields "description" >>= asString
        updateAppVersion := ((lookupField fields "updateAppVersion" >>= asBool).getD false) }
  | _ => none

def extractUpdateInfo : Json → Option UpdateCheckResponse
  | .obj fields => lookupField fields "updateInfo" >>= readUpdateInfo
  | _ => none

/-- Modelled from the spec: `queryUpdateWithCurrentPackage(currentPackage,
callback)` of the acquisition SDK's `AcquisitionManager` (source not in the
checkout; only its test suite is).  Synchronous argument validation throws;
transport failure and unparseable JSON are delivered as callback errors; a
parsed body without a recognizable `updateInfo` payload degrades to
"no update"; otherwise the decision engine's outcome is delivered. -/
def queryUpdateWithCurrentPackage (config : Configuration)
    (currentPackage : Option Package) (resp : TransportResult) : QueryResult :=
  match currentPackage with
  | none => .thrown invalidArgumentMessage
  | some pkg =>
    match validate pkg with
    | none => .thrown invalidArgumentMessage
    | some current =>
      match resp with
      | .failure message => .callback (some message) none
      | .success statusCode body =>
        if statusCode < 200 ∨ 300 ≤ statusCode then
          .callback (some serverErrorMessage) none
        else
          match parseJson body with
          | none => .callback (some invalidResponseMessage) none
          | some doc =>
            match extractUpdateInfo doc with
            | none => .callback none none
            | some latest =>
              .callback none (some (decide current latest config.ignoreAppVersion))

/-! ### StatusReporter (spec §4.3) -/

inductive AcquisitionStatus where
  | DeploymentSucceeded : AcquisitionStatus
  | DeploymentFailed : AcquisitionStatus

def AcquisitionStatus.wireName : AcquisitionStatus → String
  | .DeploymentSucceeded => "DeploymentSucceeded"
  | .DeploymentFailed => "DeploymentFailed"

/-- The deploy-report request body (spec §6 status-report wire contract). -/
structure DeploymentStatusReport where
  deploymentKey : String
  appVersion : String
  clientUniqueId : String
  label : Option String
  status : String
  previousDeploymentKey : String
  previousLabelOrAppVersion : String

/-- The download-report request body carries the package's identifying
fields. -/
structure DownloadStatusReport where
  deploymentKey : String
  appVersion : String
  clientUniqueId : String
  label : Option String
  packageHash : String

/-- Modelled from the spec: the callback delivery common to both status
reports — `(null, undefined)` on success, `(error, undefined)` on transport
or server failure; the result channel never carries a decision outcome. -/
def statusDelivery (resp : TransportResult) : Option String × Option Outcome :=
  match resp with
  | .failure message => (some message, none)
  | .success statusCode _ =>
    if statusCode < 200 ∨ 300 ≤ statusCode then (some serverErrorMessage, none)
    else (none, none)

/-- Modelled from the spec: `reportStatusDeploy(package, status,
previousLabelOrAppVersion, previousDeploymentKey, callback)` — builds the
status-report request and delivers the completion callback. -/
def reportStatusDeploy (config : Configuration) (pkg : ValidatedPackage)
    (status : AcquisitionStatus) (previousLabelOrAppVersion : String)
    (previousDeploymentKey : String) (resp : TransportResult) :
    DeploymentStatusReport × (Option String × Option Outcome) :=
  ({ deploymentKey := config.deploymentKey
     appVersion := config.appVersion
     clientUniqueId := config.clientUniqueId
     label := pkg.label
     status := status.wireName
     previousDeploymentKey
     previousLabelOrAppVersion },
   statusDelivery resp)

/-- Modelled from the spec: `reportStatusDownload(package, callback)`. -/
def reportStatusDownload (config : Configuration) (pkg : ValidatedPackage)
    (resp : TransportResult) :
    DownloadStatusReport × (Option String × Option Outcome) :=
  ({ deploymentKey := config.deploymentKey
     appVersion := config.appVersion
     clientUniqueId := config.clientUniqueId
     label := pkg.label
     packageHash := pkg.packageHash },
   statusDelivery resp)

end CodePush

namespace AccountManager

/-! ### `AccountManager.getSessions` (src/cli/script/management-sdk.ts) -/

/-- Wire shape of one entry of the `/accessKeys` response body
(`ServerAccessKey` in `types`), as `getSessions` consumes it. -/
structure ServerAccessKey where
  createdBy : String
  createdTime : Int
  expires : Int
  friendlyName : String
  isSession : Bool

/-- A logged-in session as surfaced by `getSessions`. -/
structure Session where
  loggedInTime : Int
  machineName : String

/-- JavaScript object-property update: assigning `m[k] = v` overwrites an
existing string key in place (insertion order kept) or appends a new one. -/
def insertKey (m : List (String × Session)) (k : String) (v : Session) :
    List (String × Session) :=
  if m.any (fun p => p.1 = k) then
    m.map (fun p => if p.1 = k then (k, v) else p)
  else m ++ [(k, v)]

/-- The session surfaced for one access key:
`\x7b loggedInTime: createdTime, machineName: createdBy \x7d`. -/
def sessionOf (serverAccessKey : ServerAccessKey) : Session :=
  { loggedInTime := serverAccessKey.createdTime
    machineName := serverAccessKey.createdBy }

/-- One iteration of the `forEach` body of `getSessions`: an unexpired session
key updates `sessionMap[createdBy]`; every other key is skipped. -/
def addAccessKey (now : Int) (m : List (String × Session))
    (serverAccessKey : ServerAccessKey) : List (String × Session) :=
  if serverAccessKey.isSession && serverAccessKey.expires > now then
    insertKey m serverAccessKey.createdBy (sessionOf serverAccessKey)
  else m

/-- `getSessions`: fold the response's access keys into `sessionMap`, keeping
only unexpired session keys, one per machine name (`createdBy`), then list the
map's values. -/
def getSessions (accessKeys : List ServerAccessKey) (now : Int) : List Session :=
  (accessKeys.foldl (addAccessKey now) []).map (fun p => p.2)

end AccountManager

open CodePush

/-! ## Concrete fixtures used by witness theorems

These mirror the Mocha suite's fixtures (`templateCurrentPackage`,
`mockApi.latestPackage`, `configuration`). -/

def wDeploymentKey : String := "qjPVRyntQQrKJhkkNbVJeULhAIfVtHaBDfCFggzL"

def wConfig : Configuration :=
  { serverUrl := "http://localhost:3000"
    deploymentKey := wDeploymentKey
    appVersion := "1.5.0"
    clientUniqueId := "My iPhone" }

def wCompanionConfig : Configuration := { wConfig with ignoreAppVersion := true }

def wLatest : UpdateCheckResponse :=
  { downloadURL := "http://localhost:3000/storagev2/blob1"
    description := some "Angry flappy birds"
    isMandatory := false
    appVersion := "1.5.0"
    packageHash := "hash990"
    label := "v2"
    packageSize := 100
    updateAppVersion := false }

def wCurrent : ValidatedPackage :=
  { deploymentKey := wDeploymentKey
    appVersion := "1.5.0"
    label := some "v1"
    packageHash := "hash001"
    isMandatory := false
    packageSize := 100
    description := some "sdfsdf" }

def wPackage : Package :=
  { deploymentKey := some wDeploymentKey
    appVersion := some "1.5.0"
    label := some "v1"
    packageHash := some "hash001"
    isMandatory := some false
    packageSize := some 100
    description := some "sdfsdf" }

/-- The package whose installed hash already matches the server's latest. -/
def wPackageEq : Package := { wPackage with packageHash := some "hash990" }

def wCurrentEq : ValidatedPackage := { wCurrent with packageHash := "hash990" }

/-- A response body carrying the `updateInfo` payload of `wLatest`. -/
def wBody : String :=
  "\x7b\"updateInfo\":\x7b\"downloadURL\":\"http://localhost:3000/storagev2/blob1\",\"appVersion\":\"1.5.0\",\"packageHash\":\"hash990\",\"label\":\"v2\",\"isMandatory\":false,\"packageSize\":100,\"description\":\"Angry flappy birds\"\x7d\x7d"

/-! ## Helper lemmas -/

theorem bind_eq_some_parse {body : String} {latest : UpdateCheckResponse}
    (h : (parseJson body).bind extractUpdateInfo = some latest) :
    ∃ doc, parseJson body = some doc ∧ extractUpdateInfo doc = some latest := by
  cases hp : parseJson body with
  | none => rw [hp] at h; simp at h
  | some d => rw [hp] at h; exact ⟨d, rfl, h⟩

theorem query_success_of_valid (config : Configuration) (pkg : Package)
    (current : ValidatedPackage) (latest : UpdateCheckResponse)
    (statusCode : Nat) (body : String)
    (hval : validate pkg = some current)
    (hcode : 200 ≤ statusCode) (hcode2 : statusCode < 300)
    (hbody : (parseJson body).bind extractUpdateInfo = some latest) :
    queryUpdateWithCurrentPackage config (some pkg)
        (.success statusCode body) =
      .callback none (some (CodePush.decide current latest config.ignoreAppVersion)) := by
  obtain ⟨doc, hparse, hext⟩ := bind_eq_some_parse hbody
  unfold queryUpdateWithCurrentPackage
  simp only [hval]
  rw [if_neg (by omega : ¬(statusCode < 200 ∨ 300 ≤ statusCode))]
  simp only [hparse, hext]

/-! ## Claim theorems -/

/-- Claim C1: whenever the current package's hash equals the latest response's
hash, the decision engine returns no-update regardless of every other field,
and `queryUpdateWithCurrentPackage` delivers `(null, null)` to the callback. -/
theorem decide_hash_equal_gives_no_update
    (config : Configuration) (pkg : Package) (current : ValidatedPackage)
    (latest : UpdateCheckResponse) (ignoreAppVersion : Bool)
    (statusCode : Nat) (body : String)
    (hval : validate pkg = some current)
    (hcode : 200 ≤ statusCode) (hcode2 : statusCode < 300)
    (hbody : (parseJson body).bind extractUpdateInfo = some latest)
    (hhash : latest.packageHash = current.packageHash) :
    CodePush.decide current latest ignoreAppVersion = Outcome.noUpdate ∧
    queryUpdateWithCurrentPackage config (some pkg) (.success statusCode body) =
      QueryResult.callback none (some Outcome.noUpdate) := by
  have hdec : ∀ b : Bool, CodePush.decide current latest b = Outcome.noUpdate := by
    intro b
    unfold CodePush.decide
    rw [if_pos hhash]
  refine ⟨hdec ignoreAppVersion, ?_⟩
  rw [query_success_of_valid config pkg current latest statusCode body hval hcode
      hcode2 hbody, hdec]

/-- Witness for C1 at the test suite's fixtures with matching hashes. -/
theorem decide_hash_equal_gives_no_update_witness :
    CodePush.decide wCurrentEq wLatest false = Outcome.noUpdate ∧
    queryUpdateWithCurrentPackage wConfig (some wPackageEq) (.success 200 wBody) =
      QueryResult.callback none (some Outcome.noUpdate) :=
  decide_hash_equal_gives_no_update wConfig wPackageEq wCurrentEq wLatest false
    200 wBody rfl (by decide) (by decide) rfl rfl

/-- Claim C2: with differing hashes and a binary-compatible client (or
`ignoreAppVersion`), the outcome is a `RemotePackage` whose download URL,
description, label, app version, package hash and size are copied verbatim
from the latest response, and whose `isMandatory` is the server's flag. -/
theorem decide_compatible_gives_remote
    (current : ValidatedPackage) (latest : UpdateCheckResponse)
    (ignoreAppVersion : Bool)
    (hhash : latest.packageHash ≠ current.packageHash)
    (hcompat : ignoreAppVersion = true ∨
      compareVersion current.appVersion latest.appVersion = Ordering.eq) :
    CodePush.decide current latest ignoreAppVersion =
      Outcome.remote
        { deploymentKey := current.deploymentKey
          description := latest.description
          downloadUrl := latest.downloadURL
          label := latest.label
          appVersion := latest.appVersion
          isMandatory := latest.isMandatory
          packageHash := latest.packageHash
          packageSize := latest.packageSize } := by
  unfold CodePush.decide
  rw [if_neg hhash]
  rcases hcompat with h | h
  · rw [h]
    rfl
  · cases hb : ignoreAppVersion with
    | true => rfl
    | false =>
      simp only [Bool.false_eq_true, if_false, h]
      rfl

/-- Witness for C2: hashes differ, versions equal, and the server's mandatory
flag (true) overrides the current package's (false). -/
theorem decide_compatible_gives_remote_witness :
    CodePush.decide wCurrent { wLatest with isMandatory := true } false =
      Outcome.remote
        { deploymentKey := wDeploymentKey
          description := some "Angry flappy birds"
          downloadUrl := "http://localhost:3000/storagev2/blob1"
          label := "v2"
          appVersion := "1.5.0"
          isMandatory := true
          packageHash := "hash990"
          packageSize := 100 } :=
  decide_compatible_gives_remote wCurrent { wLatest with isMandatory := true }
    false (by decide) (Or.inr rfl)

/-- Claim C3: with differing hashes, `ignoreAppVersion` off, and the client's
binary version below the latest content's required version, the outcome is a
`NativeUpdateNotification` carrying the required app version. -/
theorem decide_lower_native_version_gives_notification
    (current : ValidatedPackage) (latest : UpdateCheckResponse)
    (hhash : latest.packageHash ≠ current.packageHash)
    (hlt : compareVersion current.appVersion latest.appVersion = Ordering.lt) :
    CodePush.decide current latest false =
      Outcome.native { updateAppVersion := true, appVersion := latest.appVersion } := by
  unfold CodePush.decide
  rw [if_neg hhash]
  simp only [Bool.false_eq_true, if_false, hlt]

/-- Witness for C3 at the test suite's `"0.0.1"` client version. -/
theorem decide_lower_native_version_gives_notification_witness :
    CodePush.decide { wCurrent with appVersion := "0.0.1" } wLatest false =
      Outcome.native { updateAppVersion := true, appVersion := "1.5.0" } :=
  decide_lower_native_version_gives_notification
    { wCurrent with appVersion := "0.0.1" } wLatest (by decide) rfl

/-- Claim C4: with differing hashes, `ignoreAppVersion` off, and the client's
binary version above the latest content's target version, the outcome is
no-update. -/
theorem decide_higher_native_version_gives_no_update
    (current : ValidatedPackage) (latest : UpdateCheckResponse)
    (hhash : latest.packageHash ≠ current.packageHash)
    (hgt : compareVersion current.appVersion latest.appVersion = Ordering.gt) :
    CodePush.decide current latest false = Outcome.noUpdate := by
  unfold CodePush.decide
  rw [if_neg hhash]
  simp only [Bool.false_eq_true, if_false, hgt]

/-- Witness for C4 at the test suite's `"9.9.0"` client version. -/
theorem decide_higher_native_version_gives_no_update_witness :
    CodePush.decide { wCurrent with appVersion := "9.9.0" } wLatest false =
      Outcome.noUpdate :=
  decide_higher_native_version_gives_no_update
    { wCurrent with appVersion := "9.9.0" } wLatest (by decide) rfl

/-- Claim C5: when `ignoreAppVersion` is true the native-binary gate is
skipped entirely: any client version (arbitrarily higher or lower) still
receives the full `RemotePackage` whenever the hashes differ. -/
theorem decide_companion_ignores_native_version
    (current : ValidatedPackage) (latest : UpdateCheckResponse)
    (hhash : latest.packageHash ≠ current.packageHash) :
    CodePush.decide current latest true =
      Outcome.remote (remotePackageOf latest current.deploymentKey) := by
  unfold CodePush.decide
  rw [if_neg hhash]
  rfl

/-- Witness for C5 at the test suite's companion-app scenario
(`appVersion = "9.9.0"`, hashes differ). -/
theorem decide_companion_ignores_native_version_witness :
    CodePush.decide { wCurrent with appVersion := "9.9.0" } wLatest true =
      Outcome.remote (remotePackageOf wLatest wDeploymentKey) :=
  decide_companion_ignores_native_version
    { wCurrent with appVersion := "9.9.0" } wLatest (by decide)

/-- Claim C6: a null `currentPackage`, or one with a null required field,
raises the synchronous invalid-argument fault: the same `thrown` result for
every transport response (nothing of the network outcome is consulted), and
the callback is never invoked. -/
theorem query_invalid_arguments_throw
    (config : Configuration) (currentPackage : Option Package)
    (resp resp2 : TransportResult)
    (h : currentPackage = none ∨
      ∃ pkg, currentPackage = some pkg ∧ validate pkg = none) :
    queryUpdateWithCurrentPackage config currentPackage resp =
      QueryResult.thrown invalidArgumentMessage ∧
    queryUpdateWithCurrentPackage config currentPackage resp =
      queryUpdateWithCurrentPackage config currentPackage resp2 ∧
    ∀ e r, queryUpdateWithCurrentPackage config currentPackage resp ≠
      QueryResult.callback e r := by
  have key : ∀ r', queryUpdateWithCurrentPackage config currentPackage r' =
      QueryResult.thrown invalidArgumentMessage := by
    intro r'
    rcases h with h | ⟨pkg, hcp, hv⟩
    · rw [h]
      rfl
    · rw [hcp]
      unfold queryUpdateWithCurrentPackage
      simp only [hv]
  refine ⟨key resp, (key resp).trans (key resp2).symm, ?_⟩
  intro e r hc
  rw [key resp] at hc
  exact QueryResult.noConfusion hc

/-- The test suite's invalid argument: a current package whose `appVersion`
is null. -/
def wInvalidPackage : Package := { wPackage with appVersion := none }

/-- Witness for C6 at a null-`appVersion` package, against both a successful
response and a transport failure. -/
theorem query_invalid_arguments_throw_witness :
    queryUpdateWithCurrentPackage wConfig (some wInvalidPackage)
        (.success 200 wBody) =
      QueryResult.thrown invalidArgumentMessage ∧
    queryUpdateWithCurrentPackage wConfig (some wInvalidPackage)
        (.success 200 wBody) =
      queryUpdateWithCurrentPackage wConfig (some wInvalidPackage)
        (.failure "socket hang up") ∧
    ∀ e r, queryUpdateWithCurrentPackage wConfig (some wInvalidPackage)
        (.success 200 wBody) ≠ QueryResult.callback e r :=
  query_invalid_arguments_throw wConfig (some wInvalidPackage)
    (.success 200 wBody) (.failure "socket hang up")
    (Or.inr ⟨wInvalidPackage, rfl, rfl⟩)

/-- Claim C7: a 2xx response whose body is not valid JSON is a protocol
fault: the callback receives a non-null error and an undefined result, and
nothing is thrown. -/
theorem query_invalid_json_delivers_error
    (config : Configuration) (pkg : Package) (current : ValidatedPackage)
    (statusCode : Nat) (body : String)
    (hval : validate pkg = some current)
    (hcode : 200 ≤ statusCode) (hcode2 : statusCode < 300)
    (hjson : parseJson body = none) :
    queryUpdateWithCurrentPackage config (some pkg) (.success statusCode body) =
      QueryResult.callback (some invalidResponseMessage) none ∧
    ∀ m, queryUpdateWithCurrentPackage config (some pkg)
        (.success statusCode body) ≠ QueryResult.thrown m := by
  have key : queryUpdateWithCurrentPackage config (some pkg)
      (.success statusCode body) =
      QueryResult.callback (some invalidResponseMessage) none := by
    unfold queryUpdateWithCurrentPackage
    simp only [hval]
    rw [if_neg (by omega : ¬(statusCode < 200 ∨ 300 ≤ statusCode))]
    simp only [hjson]
  refine ⟨key, ?_⟩
  intro m hc
  rw [key] at hc
  exact QueryResult.noConfusion hc

/-- Witness for C7 at the test suite's body `"invalid \x7b\x7b json"`. -/
theorem query_invalid_json_delivers_error_witness :
    queryUpdateWithCurrentPackage wConfig (some wPackage)
        (.success 200 "invalid \x7b\x7b json") =
      QueryResult.callback (some invalidResponseMessage) none ∧
    ∀ m, queryUpdateWithCurrentPackage wConfig (some wPackage)
        (.success 200 "invalid \x7b\x7b json") ≠ QueryResult.thrown m :=
  query_invalid_json_delivers_error wConfig wPackage wCurrent 200
    "invalid \x7b\x7b json" rfl (by decide) (by decide) rfl

/-- Claim C8: a 2xx response whose body is valid JSON but carries no
recognizable `updateInfo` payload degrades to "no update": the callback
receives a null error (and no result), never an error. -/
theorem query_unrecognized_payload_gives_no_update
    (config : Configuration) (pkg : Package) (current : ValidatedPackage)
    (statusCode : Nat) (body : String) (doc : Json)
    (hval : validate pkg = some current)
    (hcode : 200 ≤ statusCode) (hcode2 : statusCode < 300)
    (hjson : parseJson body = some doc)
    (hext : extractUpdateInfo doc = none) :
    queryUpdateWithCurrentPackage config (some pkg) (.success statusCode body) =
      QueryResult.callback none none := by
  unfold queryUpdateWithCurrentPackage
  simp only [hval]
  rw [if_neg (by omega : ¬(statusCode < 200 ∨ 300 ≤ statusCode))]
  simp only [hjson, hext]

/-- Witness for C8 at the empty-object body. -/
theorem query_unrecognized_payload_gives_no_update_witness :
    queryUpdateWithCurrentPackage wConfig (some wPackage)
        (.success 200 "\x7b\x7d") =
      QueryResult.callback none none :=
  query_unrecognized_payload_gives_no_update wConfig wPackage wCurrent 200
    "\x7b\x7d" (Json.obj []) rfl (by decide) (by decide) rfl rfl

theorem statusDelivery_result_none (resp : TransportResult) :
    (statusDelivery resp).2 = none := by
  unfold statusDelivery
  cases resp with
  | failure m => rfl
  | success statusCode body =>
    dsimp only
    split <;> rfl

/-- Claim C9: both status reports deliver `(null, undefined)` on a successful
send and `(error, undefined)` on a transport failure, and their result channel
never carries a decision outcome. -/
theorem report_status_signals_completion
    (config : Configuration) (pkg : ValidatedPackage)
    (status : AcquisitionStatus)
    (previousLabelOrAppVersion previousDeploymentKey : String)
    (statusCode : Nat) (body m : String)
    (hcode : 200 ≤ statusCode) (hcode2 : statusCode < 300) :
    (reportStatusDeploy config pkg status previousLabelOrAppVersion
        previousDeploymentKey (.success statusCode body)).2 = (none, none) ∧
    (reportStatusDownload config pkg (.success statusCode body)).2 =
      (none, none) ∧
    (reportStatusDeploy config pkg status previousLabelOrAppVersion
        previousDeploymentKey (.failure m)).2 = (some m, none) ∧
    (reportStatusDownload config pkg (.failure m)).2 = (some m, none) ∧
    ∀ resp : TransportResult,
      (reportStatusDeploy config pkg status previousLabelOrAppVersion
          previousDeploymentKey resp).2.2 = none ∧
      (reportStatusDownload config pkg resp).2.2 = none := by
  have hsucc : statusDelivery (.success statusCode body) = (none, none) := by
    unfold statusDelivery
    dsimp only
    rw [if_neg (by omega : ¬(statusCode < 200 ∨ 300 ≤ statusCode))]
  refine ⟨?_, ?_, rfl, rfl, ?_⟩
  · show statusDelivery (.success statusCode body) = (none, none)
    exact hsucc
  · show statusDelivery (.success statusCode body) = (none, none)
    exact hsucc
  · intro resp
    exact ⟨statusDelivery_result_none resp, statusDelivery_result_none resp⟩

/-- Witness for C9 at the test suite's `reportStatusDeploy`/
`reportStatusDownload` invocation. -/
theorem report_status_signals_completion_witness :
    (reportStatusDeploy wConfig wCurrent AcquisitionStatus.DeploymentFailed
        "1.5.0" wDeploymentKey (.success 200 "")).2 = (none, none) ∧
    (reportStatusDownload wConfig wCurrent (.success 200 "")).2 =
      (none, none) ∧
    (reportStatusDeploy wConfig wCurrent AcquisitionStatus.DeploymentFailed
        "1.5.0" wDeploymentKey (.failure "socket hang up")).2 =
      (some "socket hang up", none) ∧
    (reportStatusDownload wConfig wCurrent (.failure "socket hang up")).2 =
      (some "socket hang up", none) ∧
    ∀ resp : TransportResult,
      (reportStatusDeploy wConfig wCurrent AcquisitionStatus.DeploymentFailed
          "1.5.0" wDeploymentKey resp).2.2 = none ∧
      (reportStatusDownload wConfig wCurrent resp).2.2 = none :=
  report_status_signals_completion wConfig wCurrent
    AcquisitionStatus.DeploymentFailed "1.5.0" wDeploymentKey 200 ""
    "socket hang up" (by decide) (by decide)

/-! ## `getSessions` lemmas -/

theorem insertKey_fst_nodup (m : List (String × AccountManager.Session))
    (k : String) (v : AccountManager.Session)
    (h : (m.map Prod.fst).Nodup) :
    ((AccountManager.insertKey m k v).map Prod.fst).Nodup := by
  unfold AccountManager.insertKey
  split
  · have heq : (m.map (fun p => if p.1 = k then (k, v) else p)).map Prod.fst =
        m.map Prod.fst := by
      rw [List.map_map]
      apply List.map_congr_left
      intro p _
      by_cases hpk : p.1 = k
      · simp [hpk]
      · simp [hpk]
    rw [heq]
    exact h
  · rename_i hnot
    rw [List.map_append, List.nodup_append]
    refine ⟨h, List.nodup_singleton _, ?_⟩
    intro a ha hb
    simp only [List.map_cons, List.map_nil, List.mem_singleton] at hb
    subst hb
    rcases List.mem_map.mp ha with ⟨p, hpm, hpk⟩
    exact hnot (List.any_eq_true.mpr ⟨p, hpm, by simp [hpk]⟩)

theorem insertKey_mem (m : List (String × AccountManager.Session))
    (k : String) (v : AccountManager.Session)
    (p : String × AccountManager.Session)
    (hp : p ∈ AccountManager.insertKey m k v) : p ∈ m ∨ p = (k, v) := by
  unfold AccountManager.insertKey at hp
  split at hp
  · rcases List.mem_map.mp hp with ⟨q, hq, hqe⟩
    by_cases hqk : q.1 = k
    · rw [if_pos hqk] at hqe
      exact Or.inr hqe.symm
    · rw [if_neg hqk] at hqe
      rw [← hqe]
      exact Or.inl hq
  · rcases List.mem_append.mp hp with h | h
    · exact Or.inl h
    · exact Or.inr (List.mem_singleton.mp h)

/-- Invariant of the `getSessions` fold: map keys stay duplicate-free, and any
property holding of every existing entry and of every entry an unexpired
session key can add keeps holding. -/
theorem foldl_addAccessKey_inv (now : Int)
    (Q : String × AccountManager.Session → Prop) :
    ∀ (keys : List AccountManager.ServerAccessKey)
      (m : List (String × AccountManager.Session)),
      (∀ k ∈ keys, (k.isSession && k.expires > now) = true →
        Q (k.createdBy, AccountManager.sessionOf k)) →
      (m.map Prod.fst).Nodup → (∀ p ∈ m, Q p) →
      ((keys.foldl (AccountManager.addAccessKey now) m).map Prod.fst).Nodup ∧
        ∀ p ∈ keys.foldl (AccountManager.addAccessKey now) m, Q p := by
  intro keys
  induction keys with
  | nil =>
    intro m _ h1 h2
    exact ⟨h1, h2⟩
  | cons k ks ih =>
    intro m hQ h1 h2
    rw [List.foldl_cons]
    apply ih
    · intro k2 hk2 hc
      exact hQ k2 (List.mem_cons_of_mem _ hk2) hc
    · unfold AccountManager.addAccessKey
      split
      · exact insertKey_fst_nodup _ _ _ h1
      · exact h1
    · intro p hp
      unfold AccountManager.addAccessKey at hp
      split at hp
      · rename_i hcond
        rcases insertKey_mem _ _ _ _ hp with h | h
        · exact h2 p h
        · rw [h]
          exact hQ k (List.mem_cons_self _ _) hcond
      · exact h2 p hp

/-- Claim C10: `getSessions` lists at most one session per machine name, and
every listed session stems from an access key of the response that has
`isSession` set and is unexpired, with `machineName = createdBy` and
`loggedInTime = createdTime`; non-session and expired keys contribute
nothing. -/
theorem getSessions_unique_unexpired_sessions
    (accessKeys : List AccountManager.ServerAccessKey) (now : Int) :
    (AccountManager.getSessions accessKeys now).Pairwise
      (fun s t => s.machineName ≠ t.machineName) ∧
    ∀ s ∈ AccountManager.getSessions accessKeys now,
      ∃ k, k ∈ accessKeys ∧ k.isSession = true ∧ k.expires > now ∧
        s.machineName = k.createdBy ∧ s.loggedInTime = k.createdTime := by
  have hQ : ∀ k ∈ accessKeys, (k.isSession && k.expires > now) = true →
      (fun p : String × AccountManager.Session =>
        p.1 = p.2.machineName ∧
        ∃ kk, kk ∈ accessKeys ∧ kk.isSession = true ∧ kk.expires > now ∧
          p.2 = AccountManager.sessionOf kk)
      (k.createdBy, AccountManager.sessionOf k) := by
    intro k hk hc
    rw [Bool.and_eq_true, decide_eq_true_eq] at hc
    exact ⟨rfl, k, hk, hc.1, hc.2, rfl⟩
  obtain ⟨hnodup, hmem⟩ :=
    foldl_addAccessKey_inv now
      (fun p : String × AccountManager.Session =>
        p.1 = p.2.machineName ∧
        ∃ kk, kk ∈ accessKeys ∧ kk.isSession = true ∧ kk.expires > now ∧
          p.2 = AccountManager.sessionOf kk)
      accessKeys [] hQ (by simp) (by simp)
  constructor
  · unfold AccountManager.getSessions
    rw [List.pairwise_map]
    have hpair : (accessKeys.foldl (AccountManager.addAccessKey now) []).Pairwise
        (fun p q => p.1 ≠ q.1) := List.pairwise_map.mp hnodup
    refine List.Pairwise.imp_of_mem ?_ hpair
    intro p q hpmem hqmem hne
    rw [← (hmem p hpmem).1, ← (hmem q hqmem).1]
    exact hne
  · intro s hs
    unfold AccountManager.getSessions at hs
    rcases List.mem_map.mp hs with ⟨p, hpm, hps⟩
    obtain ⟨_, k, hk, hsess, hexp, hval⟩ := hmem p hpm
    refine ⟨k, hk, hsess, hexp, ?_, ?_⟩
    · rw [← hps, hval]
      rfl
    · rw [← hps, hval]
      rfl
